import Mathlib

/-!
Shallow embedding of the MetaMusic playlist-analysis scripts.

Variant A (`src/index.ts`) fetches a Spotify playlist with cursor
pagination, enriches each track with a genre (TheAudioDB, falling back to
the Spotify artist endpoint) and a BPM, and writes a sorted CSV.

Variant B (`src/unnamed/part_000`) fetches a Deezer playlist in one bulk
request, resolves genres through a per-run album cache (Deezer album
endpoint) with a TheAudioDB fallback, and writes a sorted CSV.

Network endpoints are modelled as oracle functions from request key to a
`FetchResult`; thrown transport/parse errors are the `err` constructor.
JavaScript numbers are modelled by `JSNumber` (a finite integer, NaN or a
signed infinity); `Option` models `null`/`undefined` fields.
-/

/-- A JavaScript number as the scripts can observe it: a finite integral
value, `NaN`, or a signed infinity.  (All numeric fields handled by the
scripts — durations, ids, tempos — are integral when finite.) -/
inductive JSNumber where
  | finite (v : Int)
  | nan
  | posInf
  | negInf
deriving DecidableEq, Repr

/-- Result of an awaited `axios.get`: a parsed response body, or a thrown
transport error. -/
inductive FetchResult (α : Type) where
  | ok (a : α)
  | err
deriving DecidableEq, Repr

/-- JavaScript `s.padStart(2, '0')`. -/
def padStart2 (s : String) : String :=
  if s.length ≥ 2 then s else if s.length = 1 then "0" ++ s else "00"

/-- JavaScript `array.join(', ')`. -/
def joinComma : List String → String
  | [] => ""
  | [g] => g
  | g :: g2 :: gs => g ++ ", " ++ joinComma (g2 :: gs)

/-! ## Variant A (`src/index.ts`): response shapes -/

/-- One artist object of a TheAudioDB `search.php` response; `strGenre`
may be `null`/absent or the empty string. -/
structure AudioDBArtist where
  strGenre : Option String
deriving DecidableEq, Repr

/-- Body of a TheAudioDB artist-search response: `artists` may be `null`. -/
structure AudioDBSearchResp where
  artists : Option (List AudioDBArtist)
deriving DecidableEq, Repr

/-- One track object of a TheAudioDB `searchtrack.php` response; the
`intTempo` field arrives as a string (or `null`/absent). -/
structure AudioDBTrack where
  intTempo : Option String
deriving DecidableEq, Repr

/-- Body of a TheAudioDB track-search response: `track` may be `null`. -/
structure AudioDBTrackResp where
  track : Option (List AudioDBTrack)
deriving DecidableEq, Repr

/-- Body of a Spotify artist response: the `genres` array (may be absent). -/
structure SpotifyArtistResp where
  genres : Option (List String)
deriving DecidableEq, Repr

/-! ## Variant A: enrichment functions -/

/-- `getGenreFromAudioDB` (src/index.ts:63-77): genre of the first artist of
the search response when that field is truthy, `"Inconnu"` otherwise and on
any thrown error.  The oracle argument is the awaited response for this
artist name. -/
def getGenreFromAudioDB (fetch : FetchResult AudioDBSearchResp) : String :=
  match fetch with
  | .err => "Inconnu"
  | .ok resp =>
    match resp.artists with
    | some (a :: _) =>
      match a.strGenre with
      | some g => if g ≠ "" then g else "Inconnu"
      | none => "Inconnu"
    | _ => "Inconnu"

/-- `getTrackBpmFromAudioDB` (src/index.ts:80-96).  `toNumber` models the
JavaScript `Number(...)` conversion applied to the raw `intTempo` string;
the result is kept only when finite.  Returns `none` (`undefined`) when
there is no match, the tempo field is falsy, the parse is not finite, or
the request throws. -/
def getTrackBpmFromAudioDB (toNumber : String → JSNumber)
    (fetch : FetchResult AudioDBTrackResp) : Option Int :=
  match fetch with
  | .err => none
  | .ok resp =>
    match resp.track with
    | some (t :: _) =>
      match t.intTempo with
      | some tempo =>
        if tempo ≠ "" then
          match toNumber tempo with
          | .finite n => some n
          | _ => none
        else none
      | none => none
    | _ => none

/-- `getGenreFromSpotifyById` (src/index.ts:99-110): short-circuits to
`"Inconnu"` for a falsy or `"unknown"` id without any request; otherwise
returns the first entry of the artist's `genres` array, `"Inconnu"` when
that array is absent or empty, and `"Inconnu"` on a thrown error.
`world` maps an artist id to the awaited response. -/
def getGenreFromSpotifyById (world : String → FetchResult SpotifyArtistResp)
    (artistId : String) : String :=
  if artistId = "" ∨ artistId = "unknown" then "Inconnu"
  else
    match world artistId with
    | .err => "Inconnu"
    | .ok resp =>
      match resp.genres.getD [] with
      | [] => "Inconnu"
      | g :: _ => g

/-- `getGenreWithFallback` (src/index.ts:113-121): TheAudioDB first; if its
answer is falsy or the sentinel and a truthy artist id is supplied, try the
Spotify artist endpoint; otherwise the sentinel. -/
def getGenreWithFallback (audioW : String → FetchResult AudioDBSearchResp)
    (spotifyW : String → FetchResult SpotifyArtistResp)
    (artistName : String) (artistId : Option String) : String :=
  let fromAudioDB := getGenreFromAudioDB (audioW artistName)
  if fromAudioDB ≠ "" ∧ fromAudioDB ≠ "Inconnu" then fromAudioDB
  else
    match artistId with
    | some i =>
      if i ≠ "" then
        let fromSpotify := getGenreFromSpotifyById spotifyW i
        if fromSpotify ≠ "" ∧ fromSpotify ≠ "Inconnu" then fromSpotify
        else "Inconnu"
      else "Inconnu"
    | none => "Inconnu"

/-! ## Variant A: duration formatting and output records -/

/-- `formatDurationMs` (src/index.ts:149-155): `"Inconnu"` for a falsy
(absent, `NaN`, `0`) or non-finite input, otherwise
`minutes:seconds` with the seconds zero-padded to two digits.
`Int.fdiv` is JavaScript `Math.floor` of a quotient; `Int.tmod` is the
JavaScript `%` operator. -/
def formatDurationMs (ms : Option JSNumber) : String :=
  match ms with
  | some (.finite v) =>
    if v = 0 then "Inconnu"
    else
      let totalSec := Int.fdiv v 1000
      let minutes := Int.fdiv totalSec 60
      let seconds := Int.tmod totalSec 60
      toString minutes ++ ":" ++ padStart2 (toString seconds)
  | _ => "Inconnu"

/-- The `duration_seconds` expression of variant A
(src/index.ts:163,170): `Math.floor(ms / 1000)` when `durationMs` is
truthy and finite, the empty marker (`none`, serialized as `''`)
otherwise. -/
def durationSecondsA (ms : Option JSNumber) : Option JSNumber :=
  match ms with
  | some (.finite v) => if v = 0 then none else some (.finite (Int.fdiv v 1000))
  | _ => none

/-- `Track` of `src/types.ts` as built by variant A's adapter. -/
structure TrackArtist where
  id : String
  name : String
deriving DecidableEq, Repr

/-- `Album` of `src/types.ts`. -/
structure Album where
  id : String
  title : String
deriving DecidableEq, Repr

/-- `Track` of `src/types.ts` (the `bpm` field is never populated by the
adapter and never read, so it is omitted). -/
structure Track where
  id : String
  title : String
  durationMs : Option JSNumber
  artist : TrackArtist
  album : Album
deriving DecidableEq, Repr

/-- An output record as pushed into `records` by either variant:
`duration_seconds` is a number or the empty-string marker (`none`). -/
structure OutputRecord where
  title : String
  artist : String
  album : String
  genre : String
  duration : String
  duration_seconds : Option JSNumber
deriving DecidableEq, Repr

/-! ## Variant A: playlist adapter (cursor pagination) -/

/-- A raw artist object inside a Spotify playlist item. -/
structure SpotifyArtistObj where
  id : String
  name : String
deriving DecidableEq, Repr

/-- A raw album object inside a Spotify playlist item. -/
structure SpotifyAlbumObj where
  id : String
  name : String
deriving DecidableEq, Repr

/-- The `track` object of a playlist item; `artists` and `album` may be
absent (an empty `artists` array is also possible). -/
structure RawSpotifyTrack where
  id : String
  name : String
  duration_ms : Option JSNumber
  artists : Option (List SpotifyArtistObj)
  album : Option SpotifyAlbumObj
deriving DecidableEq, Repr

/-- One playlist item: its `track` may be `null`. -/
structure SpotifyItem where
  track : Option RawSpotifyTrack
deriving DecidableEq, Repr

/-- One page of the playlist-tracks endpoint: `items` plus the
server-supplied `next` URL (`null`/absent modelled as `none`). -/
structure SpotifyPage where
  items : List SpotifyItem
  next : Option String
deriving DecidableEq, Repr

/-- The field remapping of src/index.ts:38-50: first artist or the
`unknown`/`Inconnu` placeholders, album or the placeholders. -/
def mapRawTrack (t : RawSpotifyTrack) : Track :=
  { id := t.id
    title := t.name
    durationMs := t.duration_ms
    artist :=
      match t.artists with
      | some (a :: _) => { id := a.id, name := a.name }
      | _ => { id := "unknown", name := "Inconnu" }
    album :=
      match t.album with
      | some al => { id := al.id, title := al.name }
      | none => { id := "unknown", title := "Inconnu" } }

/-- One playlist item yields a mapped track, or nothing when its `track`
object is `null` (src/index.ts:36-37 skips it silently). -/
def mapItem (it : SpotifyItem) : Option Track :=
  it.track.map mapRawTrack

/-- The pagination loop of `getPlaylistTracks` (src/index.ts:32-54),
fuelled so that a server answering with an endless `next` chain is the
`none` result.  `world` maps a URL to the awaited page.  Returns the
accumulated mapped tracks together with the number of page requests
issued. -/
def getPlaylistTracksLoop (world : String → SpotifyPage) :
    Nat → String → Option (List Track × Nat)
  | 0, _ => none
  | fuel + 1, url =>
    let page := world url
    let mapped := page.items.filterMap mapItem
    match page.next with
    | none => some (mapped, 1)
    | some nxt =>
      if nxt = "" then some (mapped, 1)
      else
        match getPlaylistTracksLoop world fuel nxt with
        | none => none
        | some (rest, c) => some (mapped ++ rest, c + 1)

/-- `getPlaylistTracks` (src/index.ts:28-57): start the loop at the fixed
first-page URL. -/
def getPlaylistTracks (world : String → SpotifyPage) (fuel : Nat)
    (playlistId : String) : Option (List Track × Nat) :=
  getPlaylistTracksLoop world fuel
    ("https://api.spotify.com/v1/playlists/" ++ playlistId ++ "/tracks?limit=100")

/-- The server, asked at `url`, serves exactly this finite chain of pages:
every page links to the next page's URL and the last page's `next` is
`null` or empty. -/
inductive ServesChain (world : String → SpotifyPage) : String → List SpotifyPage → Prop
  | last {url : String} {p : SpotifyPage} :
      world url = p → (p.next = none ∨ p.next = some "") → ServesChain world url [p]
  | cons {url nxt : String} {p : SpotifyPage} {ps : List SpotifyPage} :
      world url = p → p.next = some nxt → nxt ≠ "" →
      ServesChain world nxt ps → ServesChain world url (p :: ps)

/-! ## Variant A: main loop (src/index.ts:157-172) -/

/-- The loop body for one track: artist name defaulted when falsy, artist
id passed when truthy, genre resolved with fallback, record pushed. -/
def recordOfTrackA (audioW : String → FetchResult AudioDBSearchResp)
    (spotifyW : String → FetchResult SpotifyArtistResp) (t : Track) :
    OutputRecord :=
  let artistName := if t.artist.name ≠ "" then t.artist.name else "Inconnu"
  let artistId := if t.artist.id ≠ "" then some t.artist.id else none
  let genreName := getGenreWithFallback audioW spotifyW artistName artistId
  { title := t.title
    artist := t.artist.name
    album := t.album.title
    genre := genreName
    duration := formatDurationMs t.durationMs
    duration_seconds := durationSecondsA t.durationMs }

/-- Variant A's per-track loop: one record per track, and the fixed
one-second pause is awaited once per iteration, unconditionally
(src/index.ts:161-162).  Returns the records in input order and the
number of pauses taken. -/
def analyzeLoopA (audioW : String → FetchResult AudioDBSearchResp)
    (spotifyW : String → FetchResult SpotifyArtistResp) :
    List Track → List OutputRecord × Nat
  | [] => ([], 0)
  | t :: ts =>
    let r := recordOfTrackA audioW spotifyW t
    let rest := analyzeLoopA audioW spotifyW ts
    (r :: rest.1, rest.2 + 1)

/-! ## Variant B (`src/unnamed/part_000`): response shapes and cache -/

/-- One genre object of a Deezer album response; `name` may be absent or
empty. -/
structure DeezerGenre where
  name : Option String
deriving DecidableEq, Repr

/-- Body of a Deezer album response: the nested `genres.data` array,
`none` when `genres` or `genres.data` is absent. -/
structure DeezerAlbumResp where
  genresData : Option (List DeezerGenre)
deriving DecidableEq, Repr

/-- The genre-name extraction of src/unnamed/part_000:43-49: every truthy
`name` of `genres.data`, in order. -/
def extractAlbumGenres (resp : DeezerAlbumResp) : List String :=
  (resp.genresData.getD []).filterMap fun g =>
    match g.name with
    | some n => if n ≠ "" then some n else none
    | none => none

/-- The module-level `albumCache` `Map`, as an association list (entries
are only ever added, never overwritten). -/
abbrev AlbumCache := List (Nat × List String)

/-- `albumCache.has`/`albumCache.get` combined: the stored value, if any. -/
def cacheGet : AlbumCache → Nat → Option (List String)
  | [], _ => none
  | (k, v) :: rest, albumId => if k = albumId then some v else cacheGet rest albumId

/-- `getDeezerAlbumInfo` (src/unnamed/part_000:33-58).  `world` maps an
album id to the awaited album response.  Returns the cache after the call,
the genre list handed back, and the number of network requests issued
(0 on a cache hit, 1 otherwise).  On a hit the stored value is returned;
on a miss the fetched genres are extracted, stored and returned; on a
thrown error the empty list is returned and nothing is stored. -/
def getDeezerAlbumInfo (world : Nat → FetchResult DeezerAlbumResp)
    (cache : AlbumCache) (albumId : Nat) : AlbumCache × List String × Nat :=
  match cacheGet cache albumId with
  | some v => (cache, v, 0)
  | none =>
    match world albumId with
    | .ok resp =>
      let genres := extractAlbumGenres resp
      ((albumId, genres) :: cache, genres, 1)
    | .err => (cache, [], 1)

/-- `getAudioDBInfo` (src/unnamed/part_000:61-76): the first artist's
truthy `strGenre`, `"Inconnu"` otherwise and on a thrown error.  The
`trackTitle` parameter is accepted as in the source but unused by the
genre lookup. -/
def getAudioDBInfo (audioW : String → FetchResult AudioDBSearchResp)
    (artistName : String) (_trackTitle : String) : String :=
  match audioW artistName with
  | .err => "Inconnu"
  | .ok resp =>
    match resp.artists with
    | some (a :: _) =>
      match a.strGenre with
      | some g => if g ≠ "" then g else "Inconnu"
      | none => "Inconnu"
    | _ => "Inconnu"

/-- `formatDuration` (src/unnamed/part_000:110-115): the input is a count
of seconds; `"Inconnu"` for a falsy (absent, `NaN`, `0`) or non-finite
input, otherwise `minutes:seconds` with the seconds zero-padded. -/
def formatDuration (seconds : Option JSNumber) : String :=
  match seconds with
  | some (.finite v) =>
    if v = 0 then "Inconnu"
    else
      let minutes := Int.fdiv v 60
      let secs := Int.tmod v 60
      toString minutes ++ ":" ++ padStart2 (toString secs)
  | _ => "Inconnu"

/-- A raw Deezer playlist track as variant B consumes it: every access in
the source is optional-chained or truthiness-guarded, so every field may
be absent. -/
structure DeezerArtistObj where
  name : Option String
deriving DecidableEq, Repr

/-- The `album` object of a Deezer track: numeric id and title, either may
be absent. -/
structure DeezerAlbumObj where
  id : Option Nat
  title : Option String
deriving DecidableEq, Repr

/-- A Deezer playlist track (only the fields the script reads). -/
structure DeezerTrack where
  title : Option String
  artist : Option DeezerArtistObj
  album : Option DeezerAlbumObj
  duration : Option JSNumber
deriving DecidableEq, Repr

/-- `track.title || 'Inconnu'`-style truthy defaulting. -/
def truthyOr (v : Option String) (dflt : String) : String :=
  match v with
  | some s => if s ≠ "" then s else dflt
  | none => dflt

/-- The endpoints variant B's loop body talks to. -/
structure DeezerWorld where
  album : Nat → FetchResult DeezerAlbumResp
  audioDB : String → FetchResult AudioDBSearchResp

/-- Result of variant B's loop body for one track (src/unnamed/
part_000:117-148): cache after the iteration, the pushed record, the
number of album requests issued, whether the TheAudioDB fallback call was
made, and whether the one-second pause was awaited. -/
structure BStep where
  cache : AlbumCache
  record : OutputRecord
  albumRequests : Nat
  fallbackCalled : Bool
  paused : Bool

/-- The album-genre phase of variant B's loop body (src/unnamed/
part_000:120-130): when the track's album id is truthy (present and
nonzero) the album info is looked up and a non-empty genre list is
comma-joined; otherwise the genre stays the sentinel.  Returns the cache
after the phase, the genre string so far, and the number of album
requests issued. -/
def albumPhaseB (world : DeezerWorld) (cache : AlbumCache) :
    Option Nat → AlbumCache × String × Nat
  | some aid =>
    if aid ≠ 0 then
      let r := getDeezerAlbumInfo world.album cache aid
      if r.2.1 ≠ [] then (r.1, joinComma r.2.1, r.2.2)
      else (r.1, "Inconnu", r.2.2)
    else (cache, "Inconnu", 0)
  | none => (cache, "Inconnu", 0)

/-- Variant B's loop body (src/unnamed/part_000:117-148).  The fallback —
and the pause, which sits inside the same conditional — runs exactly when
the genre is still the sentinel after the album phase. -/
def processTrackB (world : DeezerWorld) (cache : AlbumCache)
    (t : DeezerTrack) : BStep :=
  let artistName := truthyOr (t.artist.bind (·.name)) "Inconnu"
  let trackTitle := truthyOr t.title "Inconnu"
  let phase := albumPhaseB world cache (t.album.bind (·.id))
  let needFallback := phase.2.1 = "Inconnu"
  let genreName :=
    if needFallback then getAudioDBInfo world.audioDB artistName trackTitle
    else phase.2.1
  { cache := phase.1
    record :=
      { title := trackTitle
        artist := artistName
        album := truthyOr (t.album.bind (·.title)) "Inconnu"
        genre := genreName
        duration := formatDuration t.duration
        duration_seconds := t.duration }
    albumRequests := phase.2.2
    fallbackCalled := needFallback
    paused := needFallback }

/-- Variant B's per-track loop over the whole playlist, threading the
cache; returns the final cache, the records in input order, and the
number of pauses taken. -/
def analyzeLoopB (world : DeezerWorld) :
    AlbumCache → List DeezerTrack → AlbumCache × List OutputRecord × Nat
  | cache, [] => (cache, [], 0)
  | cache, t :: ts =>
    let step := processTrackB world cache t
    let rest := analyzeLoopB world step.cache ts
    (rest.1, step.record :: rest.2.1, rest.2.2 + (if step.paused then 1 else 0))

/-! ## Report sort (identical comparator in both variants) -/

/-- JavaScript `s.toLowerCase()` on a string viewed as its character
sequence. -/
def toLowerStr (s : String) : List Char :=
  s.data.map Char.toLower

/-- JavaScript `<` on two strings viewed as character sequences:
lexicographic comparison, character by character. -/
def ltStr : List Char → List Char → Bool
  | [], [] => false
  | [], _ :: _ => true
  | _ :: _, [] => false
  | a :: as, b :: bs => if a < b then true else if b < a then false else ltStr as bs

/-- The comparator of src/index.ts:175-189 and src/unnamed/
part_000:151-165: lowercased genre, then artist, then title, returning
-1/1/0. -/
def cmpRecords (a b : OutputRecord) : Int :=
  let ga := toLowerStr a.genre
  let gb := toLowerStr b.genre
  if ltStr ga gb then -1
  else if ltStr gb ga then 1
  else
    let aa := toLowerStr a.artist
    let ab := toLowerStr b.artist
    if ltStr aa ab then -1
    else if ltStr ab aa then 1
    else
      let ta := toLowerStr a.title
      let tb := toLowerStr b.title
      if ltStr ta tb then -1
      else if ltStr tb ta then 1
      else 0

/-- The Boolean "comparator result is non-positive" relation the sort
orders by. -/
def recLe (a b : OutputRecord) : Bool :=
  cmpRecords a b ≤ 0

/-- `records.sort(cmp)`: JavaScript `Array.prototype.sort` is stable, so
it is the stable merge sort by the comparator. -/
def sortRecords (l : List OutputRecord) : List OutputRecord :=
  l.mergeSort recLe

/-- The case-insensitive key triple a record is ordered by. -/
def recKey (r : OutputRecord) : List Char × List Char × List Char :=
  (toLowerStr r.genre, toLowerStr r.artist, toLowerStr r.title)

/-- The specification's order, written independently of the comparator:
strict lexicographic order on the lowercased (genre, artist, title)
triple, with `List.Lex` (Mathlib's textbook lexicographic order on
sequences) comparing each component. -/
def keyLtSpec (a b : OutputRecord) : Prop :=
  List.Lex (· < ·) (toLowerStr a.genre) (toLowerStr b.genre) ∨
    (toLowerStr a.genre = toLowerStr b.genre ∧
      (List.Lex (· < ·) (toLowerStr a.artist) (toLowerStr b.artist) ∨
        (toLowerStr a.artist = toLowerStr b.artist ∧
          List.Lex (· < ·) (toLowerStr a.title) (toLowerStr b.title))))

/-! ## Order lemmas for the report comparator -/

theorem ltStr_irrefl (a : List Char) : ltStr a a = false := by
  induction a with
  | nil => rfl
  | cons x xs ih => simp [ltStr, lt_irrefl, ih]

theorem ltStr_asymm : ∀ (a b : List Char), ltStr a b = true → ltStr b a = true → False
  | [], [], h1, _ => by simp [ltStr] at h1
  | [], _ :: _, _, h2 => by simp [ltStr] at h2
  | _ :: _, [], h1, _ => by simp [ltStr] at h1
  | x :: xs, y :: ys, h1, h2 => by
    simp only [ltStr] at h1 h2
    rcases lt_trichotomy x y with hxy | hxy | hxy
    · rw [if_neg (asymm hxy), if_pos hxy] at h2
      simp at h2
    · subst hxy
      rw [if_neg (lt_irrefl x), if_neg (lt_irrefl x)] at h1 h2
      exact ltStr_asymm xs ys h1 h2
    · rw [if_neg (asymm hxy), if_pos hxy] at h1
      simp at h1

theorem ltStr_connex : ∀ (a b : List Char), ltStr a b = false → ltStr b a = false → a = b
  | [], [], _, _ => rfl
  | [], _ :: _, h1, _ => by simp [ltStr] at h1
  | _ :: _, [], _, h2 => by simp [ltStr] at h2
  | x :: xs, y :: ys, h1, h2 => by
    simp only [ltStr] at h1 h2
    rcases lt_trichotomy x y with hxy | hxy | hxy
    · rw [if_pos hxy] at h1
      simp at h1
    · subst hxy
      rw [if_neg (lt_irrefl x), if_neg (lt_irrefl x)] at h1 h2
      rw [ltStr_connex xs ys h1 h2]
    · rw [if_pos hxy] at h2
      simp at h2

theorem ltStr_trans : ∀ (a b c : List Char),
    ltStr a b = true → ltStr b c = true → ltStr a c = true
  | [], b, c, h1, h2 => by
    match b, c with
    | [], _ => simp [ltStr] at h1
    | _ :: _, [] => simp [ltStr] at h2
    | _ :: _, _ :: _ => simp [ltStr]
  | _ :: _, [], _, h1, _ => by simp [ltStr] at h1
  | _ :: _, _ :: _, [], _, h2 => by simp [ltStr] at h2
  | x :: xs, y :: ys, z :: zs, h1, h2 => by
    simp only [ltStr] at h1 h2 ⊢
    rcases lt_trichotomy x y with hxy | hxy | hxy
    · rcases lt_trichotomy y z with hyz | hyz | hyz
      · rw [if_pos (lt_trans hxy hyz)]
      · subst hyz
        rw [if_pos hxy]
      · rw [if_neg (asymm hyz), if_pos hyz] at h2
        simp at h2
    · subst hxy
      rw [if_neg (lt_irrefl x), if_neg (lt_irrefl x)] at h1
      rcases lt_trichotomy x z with hxz | hxz | hxz
      · rw [if_pos hxz]
      · subst hxz
        rw [if_neg (lt_irrefl x), if_neg (lt_irrefl x)] at h2 ⊢
        exact ltStr_trans xs ys zs h1 h2
      · rw [if_neg (asymm hxz), if_pos hxz] at h2
        simp at h2
    · rw [if_neg (asymm hxy), if_pos hxy] at h1
      simp at h1

/-- The comparator's character-level order is Mathlib's lexicographic
order. -/
theorem ltStr_iff_lex : ∀ (a b : List Char), ltStr a b = true ↔ List.Lex (· < ·) a b
  | [], [] => by
    simp only [ltStr, Bool.false_eq_true, false_iff]
    intro h
    cases h
  | [], _ :: _ => by
    simp only [ltStr, true_iff]
    exact List.Lex.nil
  | _ :: _, [] => by
    simp only [ltStr, Bool.false_eq_true, false_iff]
    intro h
    cases h
  | x :: xs, y :: ys => by
    simp only [ltStr]
    rcases lt_trichotomy x y with hxy | hxy | hxy
    · rw [if_pos hxy]
      simp only [true_iff]
      exact List.Lex.rel hxy
    · subst hxy
      rw [if_neg (lt_irrefl x), if_neg (lt_irrefl x)]
      rw [ltStr_iff_lex xs ys]
      constructor
      · exact fun h => List.Lex.cons h
      · intro h
        cases h with
        | cons h => exact h
        | rel h => exact absurd h (lt_irrefl x)
    · rw [if_neg (asymm hxy), if_pos hxy]
      simp only [Bool.false_eq_true, false_iff]
      intro h
      cases h with
      | cons h => exact absurd hxy (lt_irrefl x)
      | rel h => exact absurd h (asymm hxy)

/-! ## A generic two-level lexicographic combinator, used to analyse the
three-level comparator -/

/-- Strict lexicographic combination of two Boolean strict orders. -/
def lexB {α β : Type} (la : α → α → Bool) (lb : β → β → Bool)
    (p q : α × β) : Bool :=
  la p.1 q.1 || (!la q.1 p.1 && lb p.2 q.2)

theorem lexB_asymm {α β : Type} {la : α → α → Bool} {lb : β → β → Bool}
    (haA : ∀ a b, la a b = true → la b a = true → False)
    (hbA : ∀ a b, lb a b = true → lb b a = true → False)
    (p q : α × β) :
    lexB la lb p q = true → lexB la lb q p = true → False := by
  unfold lexB
  simp only [Bool.or_eq_true, Bool.and_eq_true, Bool.not_eq_true']
  rintro (h1 | ⟨h1, h1b⟩) (h2 | ⟨h2, h2b⟩)
  · exact haA _ _ h1 h2
  · rw [h2] at h1
    cases h1
  · rw [h1] at h2
    cases h2
  · exact hbA _ _ h1b h2b

theorem lexB_conn {α β : Type} {la : α → α → Bool} {lb : β → β → Bool}
    (haC : ∀ a b, la a b = false → la b a = false → a = b)
    (hbC : ∀ a b, lb a b = false → lb b a = false → a = b)
    (p q : α × β) :
    lexB la lb p q = false → lexB la lb q p = false → p = q := by
  unfold lexB
  simp only [Bool.or_eq_false_iff, Bool.and_eq_false_iff, Bool.not_eq_false']
  rintro ⟨h1, h2⟩ ⟨h3, h4⟩
  have hfst : p.1 = q.1 := haC _ _ h1 h3
  rcases h2 with h2 | h2
  · rw [h2] at h3
    cases h3
  · rcases h4 with h4 | h4
    · rw [h4] at h1
      cases h1
    · exact Prod.ext hfst (hbC _ _ h2 h4)

/-- Non-strict transitivity of a Boolean strict order, derived from
asymmetry-style connexity and transitivity. -/
theorem ltB_nlt_trans {α : Type} {la : α → α → Bool}
    (haC : ∀ a b, la a b = false → la b a = false → a = b)
    (haT : ∀ a b c, la a b = true → la b c = true → la a c = true)
    {a b c : α} (h1 : la b a = false) (h2 : la c b = false) :
    la c a = false := by
  by_cases hab : la a b = true
  · by_cases hca : la c a = true
    · have := haT c a b hca hab
      rw [this] at h2
      cases h2
    · simpa using hca
  · have hab' : la a b = false := by simpa using hab
    have : a = b := haC a b hab' h1
    subst this
    exact h2

theorem lexB_trans {α β : Type} {la : α → α → Bool} {lb : β → β → Bool}
    (haC : ∀ a b, la a b = false → la b a = false → a = b)
    (haT : ∀ a b c, la a b = true → la b c = true → la a c = true)
    (hbT : ∀ a b c, lb a b = true → lb b c = true → lb a c = true)
    (p q r : α × β) :
    lexB la lb p q = true → lexB la lb q r = true → lexB la lb p r = true := by
  unfold lexB
  simp only [Bool.or_eq_true, Bool.and_eq_true, Bool.not_eq_true']
  rintro (h1 | ⟨h1, h1b⟩) (h2 | ⟨h2, h2b⟩)
  · exact Or.inl (haT _ _ _ h1 h2)
  · by_cases hqr : la q.1 r.1 = true
    · exact Or.inl (haT _ _ _ h1 hqr)
    · have heq : q.1 = r.1 := haC _ _ (by simpa using hqr) h2
      rw [heq] at h1
      exact Or.inl h1
  · by_cases hpq : la p.1 q.1 = true
    · exact Or.inl (haT _ _ _ hpq h2)
    · have heq : p.1 = q.1 := haC _ _ (by simpa using hpq) h1
      rw [← heq] at h2
      exact Or.inl h2
  · by_cases hpq : la p.1 q.1 = true
    · by_cases hqr : la q.1 r.1 = true
      · exact Or.inl (haT _ _ _ hpq hqr)
      · have heq : q.1 = r.1 := haC _ _ (by simpa using hqr) h2
        rw [heq] at hpq
        exact Or.inl hpq
    · have hpq2 : p.1 = q.1 := haC _ _ (by simpa using hpq) h1
      by_cases hqr : la q.1 r.1 = true
      · rw [hpq2]
        exact Or.inl hqr
      · have hqr2 : q.1 = r.1 := haC _ _ (by simpa using hqr) h2
        refine Or.inr ⟨?_, hbT _ _ _ h1b h2b⟩
        rw [hqr2] at h1
        exact h1

/-- Strict "key is smaller" relation: three-level lexicographic
combination of the character-level comparisons the comparator performs. -/
def keyLtB (a b : OutputRecord) : Bool :=
  lexB ltStr (lexB ltStr ltStr) (recKey a) (recKey b)

theorem keyLtB_asymm (a b : OutputRecord) :
    keyLtB a b = true → keyLtB b a = true → False :=
  lexB_asymm ltStr_asymm (lexB_asymm ltStr_asymm ltStr_asymm) _ _

theorem keyLtB_conn (a b : OutputRecord) :
    keyLtB a b = false → keyLtB b a = false → recKey a = recKey b :=
  lexB_conn ltStr_connex (lexB_conn ltStr_connex ltStr_connex) _ _

theorem keyLtB_trans (a b c : OutputRecord) :
    keyLtB a b = true → keyLtB b c = true → keyLtB a c = true :=
  lexB_trans ltStr_connex ltStr_trans
    (lexB_trans ltStr_connex ltStr_trans ltStr_trans) _ _ _

theorem keyLtB_irrefl (a : OutputRecord) : keyLtB a a = false := by
  by_cases h : keyLtB a a = true
  · exact absurd (keyLtB_asymm a a h h) not_false
  · simpa using h

/-- The source comparator returns -1, 1 or 0 exactly as the strict
three-level key order dictates. -/
theorem cmpRecords_char (a b : OutputRecord) :
    cmpRecords a b =
      if keyLtB a b = true then -1 else if keyLtB b a = true then 1 else 0 := by
  unfold cmpRecords keyLtB lexB recKey
  by_cases h1 : ltStr (toLowerStr a.genre) (toLowerStr b.genre) = true
  · have h2 : ltStr (toLowerStr b.genre) (toLowerStr a.genre) = false := by
      by_cases h : ltStr (toLowerStr b.genre) (toLowerStr a.genre) = true
      · exact absurd (ltStr_asymm _ _ h1 h) not_false
      · simpa using h
    simp [h1, h2]
  · have h1' : ltStr (toLowerStr a.genre) (toLowerStr b.genre) = false := by simpa using h1
    by_cases h2 : ltStr (toLowerStr b.genre) (toLowerStr a.genre) = true
    · simp [h1', h2]
    · have h2' : ltStr (toLowerStr b.genre) (toLowerStr a.genre) = false := by simpa using h2
      by_cases h3 : ltStr (toLowerStr a.artist) (toLowerStr b.artist) = true
      · have h4 : ltStr (toLowerStr b.artist) (toLowerStr a.artist) = false := by
          by_cases h : ltStr (toLowerStr b.artist) (toLowerStr a.artist) = true
          · exact absurd (ltStr_asymm _ _ h3 h) not_false
          · simpa using h
        simp [h1', h2', h3, h4]
      · have h3' : ltStr (toLowerStr a.artist) (toLowerStr b.artist) = false := by simpa using h3
        by_cases h4 : ltStr (toLowerStr b.artist) (toLowerStr a.artist) = true
        · simp [h1', h2', h3', h4]
        · have h4' : ltStr (toLowerStr b.artist) (toLowerStr a.artist) = false := by simpa using h4
          by_cases h5 : ltStr (toLowerStr a.title) (toLowerStr b.title) = true
          · have h6 : ltStr (toLowerStr b.title) (toLowerStr a.title) = false := by
              by_cases h : ltStr (toLowerStr b.title) (toLowerStr a.title) = true
              · exact absurd (ltStr_asymm _ _ h5 h) not_false
              · simpa using h
            simp [h1', h2', h3', h4', h5, h6]
          · have h5' : ltStr (toLowerStr a.title) (toLowerStr b.title) = false := by simpa using h5
            by_cases h6 : ltStr (toLowerStr b.title) (toLowerStr a.title) = true
            · simp [h1', h2', h3', h4', h5', h6]
            · have h6' : ltStr (toLowerStr b.title) (toLowerStr a.title) = false := by simpa using h6
              simp [h1', h2', h3', h4', h5', h6']

/-- The strict key order only looks at the key triple. -/
theorem keyLtB_congr {a b c d : OutputRecord} (h1 : recKey a = recKey c)
    (h2 : recKey b = recKey d) : keyLtB a b = keyLtB c d := by
  unfold keyLtB
  rw [h1, h2]

/-- The sort's Boolean relation holds exactly when the first key is
strictly smaller or the keys coincide. -/
theorem recLe_iff (a b : OutputRecord) :
    recLe a b = true ↔ (keyLtB a b = true ∨ recKey a = recKey b) := by
  unfold recLe
  rw [cmpRecords_char]
  by_cases h1 : keyLtB a b = true
  · rw [if_pos h1]
    constructor
    · intro _
      exact Or.inl h1
    · intro _
      rfl
  · have h1f : keyLtB a b = false := by simpa using h1
    rw [if_neg h1]
    by_cases h2 : keyLtB b a = true
    · rw [if_pos h2]
      rw [show decide ((1 : Int) ≤ 0) = false from rfl]
      simp only [h1f, Bool.false_eq_true, false_or, false_iff]
      intro h
      have hc : keyLtB b a = keyLtB b b := keyLtB_congr rfl h
      rw [keyLtB_irrefl b, h2] at hc
      cases hc
    · rw [if_neg h2]
      have h2f : keyLtB b a = false := by simpa using h2
      constructor
      · intro _
        exact Or.inr (keyLtB_conn a b h1f h2f)
      · intro _
        rfl

theorem recLe_total (a b : OutputRecord) : (recLe a b || recLe b a) = true := by
  by_cases h : keyLtB a b = true
  · have : recLe a b = true := (recLe_iff a b).mpr (Or.inl h)
    rw [this]
    rfl
  · by_cases h2 : keyLtB b a = true
    · have : recLe b a = true := (recLe_iff b a).mpr (Or.inl h2)
      rw [this, Bool.or_true]
    · have hk := keyLtB_conn a b (by simpa using h) (by simpa using h2)
      have : recLe a b = true := (recLe_iff a b).mpr (Or.inr hk)
      rw [this]
      rfl

theorem recLe_trans (a b c : OutputRecord) :
    recLe a b = true → recLe b c = true → recLe a c = true := by
  intro h1 h2
  rcases (recLe_iff a b).mp h1 with hl | he
  · rcases (recLe_iff b c).mp h2 with hl2 | he2
    · exact (recLe_iff a c).mpr (Or.inl (keyLtB_trans a b c hl hl2))
    · have : keyLtB a c = keyLtB a b := keyLtB_congr rfl he2.symm
      exact (recLe_iff a c).mpr (Or.inl (this ▸ hl))
  · rcases (recLe_iff b c).mp h2 with hl2 | he2
    · have : keyLtB a c = keyLtB b c := keyLtB_congr he rfl
      exact (recLe_iff a c).mpr (Or.inl (this ▸ hl2))
    · exact (recLe_iff a c).mpr (Or.inr (he.trans he2))

/-- One level of the Boolean/specification lexicographic equivalence. -/
theorem lex_level_iff {g1 g2 : List Char} {X : Prop} :
    (ltStr g1 g2 = true ∨ (ltStr g2 g1 = false ∧ X)) ↔
      (List.Lex (· < ·) g1 g2 ∨ (g1 = g2 ∧ X)) := by
  constructor
  · rintro (h | ⟨h, hx⟩)
    · exact Or.inl ((ltStr_iff_lex _ _).mp h)
    · by_cases hlt : ltStr g1 g2 = true
      · exact Or.inl ((ltStr_iff_lex _ _).mp hlt)
      · exact Or.inr ⟨ltStr_connex _ _ (by simpa using hlt) h, hx⟩
  · rintro (h | ⟨h, hx⟩)
    · exact Or.inl ((ltStr_iff_lex _ _).mpr h)
    · subst h
      exact Or.inr ⟨ltStr_irrefl _, hx⟩

/-- The comparator's strict key order is exactly the specification's
case-insensitive lexicographic (genre, artist, title) order. -/
theorem keyLtB_iff_spec (a b : OutputRecord) :
    keyLtB a b = true ↔ keyLtSpec a b := by
  unfold keyLtB lexB recKey keyLtSpec
  simp only [Bool.or_eq_true, Bool.and_eq_true, Bool.not_eq_true']
  rw [lex_level_iff, lex_level_iff, ltStr_iff_lex]

/-- Keys are equal exactly when the lowercased fields agree pairwise. -/
theorem recKey_eq_iff (a b : OutputRecord) :
    recKey a = recKey b ↔
      (toLowerStr a.genre = toLowerStr b.genre ∧
        toLowerStr a.artist = toLowerStr b.artist ∧
        toLowerStr a.title = toLowerStr b.title) := by
  unfold recKey
  simp [Prod.ext_iff]

/-- C5: The report sort (the comparator is identical in both variants)
orders records by the (genre, artist, title) key triple, each component
compared case-insensitively, ascending — the output is a permutation of
the input whose consecutive records are in non-decreasing key order —
and it is stable: for every key value, the records whose three lowercased
keys equal it form the same subsequence (same records, same relative
order) in the output as in the input. -/
theorem sortRecords_sorted_stable (l : List OutputRecord) :
    (sortRecords l).Perm l ∧
    (sortRecords l).Pairwise (fun a b => keyLtSpec a b ∨ recKey a = recKey b) ∧
    ∀ k : List Char × List Char × List Char,
      (sortRecords l).filter (fun r => decide (recKey r = k)) =
        l.filter (fun r => decide (recKey r = k)) := by
  unfold sortRecords
  refine ⟨List.mergeSort_perm l recLe, ?_, ?_⟩
  · have hs := List.sorted_mergeSort recLe_trans recLe_total l
    exact hs.imp fun h =>
      (Or.imp_left ((keyLtB_iff_spec _ _).mp)) ((recLe_iff _ _).mp h)
  · intro k
    have hpair : (l.filter (fun r => decide (recKey r = k))).Pairwise
        (fun a b => recLe a b = true) := by
      apply List.pairwise_of_forall_mem_list
      intro x hx y hy
      have hxk : recKey x = k := by
        simpa using (List.mem_filter.mp hx).2
      have hyk : recKey y = k := by
        simpa using (List.mem_filter.mp hy).2
      exact (recLe_iff x y).mpr (Or.inr (hxk.trans hyk.symm))
    have hsub : (l.filter (fun r => decide (recKey r = k))).Sublist
        (l.mergeSort recLe) :=
      List.sublist_mergeSort recLe_trans recLe_total hpair (List.filter_sublist l)
    have hff : ((l.filter (fun r => decide (recKey r = k))).filter
        (fun r => decide (recKey r = k))) = l.filter (fun r => decide (recKey r = k)) := by
      rw [List.filter_filter]
      simp
    have hsub2 : (l.filter (fun r => decide (recKey r = k))).Sublist
        ((l.mergeSort recLe).filter (fun r => decide (recKey r = k))) := by
      have h2 := hsub.filter (fun r => decide (recKey r = k))
      rwa [hff] at h2
    have hlen : ((l.mergeSort recLe).filter (fun r => decide (recKey r = k))).length
        = (l.filter (fun r => decide (recKey r = k))).length := by
      rw [← List.countP_eq_length_filter, ← List.countP_eq_length_filter]
      exact (List.mergeSort_perm l recLe).countP_eq _
    exact (hsub2.eq_of_length hlen.symm).symm

/-! ## Helper lemmas: non-empty genres -/

/-- The code's usability test for a genre candidate: truthy and not the
sentinel. -/
def usableGenre (g : String) : Prop :=
  g ≠ "" ∧ g ≠ "Inconnu"

instance (g : String) : Decidable (usableGenre g) := by
  unfold usableGenre
  infer_instance

theorem getGenreFromAudioDB_ne_empty (fetch : FetchResult AudioDBSearchResp) :
    getGenreFromAudioDB fetch ≠ "" := by
  cases fetch with
  | err => decide
  | ok resp =>
    cases harts : resp.artists with
    | none => simp [getGenreFromAudioDB, harts]
    | some l =>
      cases l with
      | nil => simp [getGenreFromAudioDB, harts]
      | cons a rest =>
        cases hg : a.strGenre with
        | none => simp [getGenreFromAudioDB, harts, hg]
        | some g =>
          by_cases h : g = ""
          · simp [getGenreFromAudioDB, harts, hg, h]
          · simp [getGenreFromAudioDB, harts, hg, h]

/-- Variant B's TheAudioDB helper performs the same genre extraction as
variant A's. -/
theorem getAudioDBInfo_eq (aw : String → FetchResult AudioDBSearchResp)
    (n t : String) : getAudioDBInfo aw n t = getGenreFromAudioDB (aw n) := by
  unfold getAudioDBInfo getGenreFromAudioDB
  rfl

theorem getAudioDBInfo_ne_empty (aw : String → FetchResult AudioDBSearchResp)
    (n t : String) : getAudioDBInfo aw n t ≠ "" := by
  rw [getAudioDBInfo_eq]
  exact getGenreFromAudioDB_ne_empty (aw n)

theorem getGenreWithFallback_ne_empty
    (aw : String → FetchResult AudioDBSearchResp)
    (sw : String → FetchResult SpotifyArtistResp)
    (n : String) (id : Option String) :
    getGenreWithFallback aw sw n id ≠ "" := by
  unfold getGenreWithFallback
  by_cases h1 : getGenreFromAudioDB (aw n) ≠ "" ∧ getGenreFromAudioDB (aw n) ≠ "Inconnu"
  · rw [if_pos h1]
    exact h1.1
  · rw [if_neg h1]
    cases id with
    | none =>
      show ("Inconnu" : String) ≠ ""
      decide
    | some i =>
      simp only
      by_cases hi : i ≠ ""
      · rw [if_pos hi]
        by_cases h2 : getGenreFromSpotifyById sw i ≠ "" ∧ getGenreFromSpotifyById sw i ≠ "Inconnu"
        · rw [if_pos h2]
          exact h2.1
        · rw [if_neg h2]
          decide
      · rw [if_neg hi]
        decide

theorem extractAlbumGenres_ne_empty (resp : DeezerAlbumResp) :
    ∀ g ∈ extractAlbumGenres resp, g ≠ "" := by
  intro g hg
  unfold extractAlbumGenres at hg
  obtain ⟨d, _, hd⟩ := List.mem_filterMap.mp hg
  cases hn : d.name with
  | none =>
    rw [hn] at hd
    simp at hd
  | some n =>
    rw [hn] at hd
    by_cases h : n = ""
    · simp [h] at hd
    · simp only [ne_eq, h, not_false_iff, if_true, Option.some.injEq] at hd
      subst hd
      exact h

theorem joinComma_ne_empty : ∀ (gs : List String), gs ≠ [] →
    (∀ g ∈ gs, g ≠ "") → joinComma gs ≠ ""
  | [], h, _ => absurd rfl h
  | [g], _, hall => by
    unfold joinComma
    exact hall g (by simp)
  | g :: g2 :: gs, _, hall => by
    unfold joinComma
    intro hcon
    have hlen := congrArg String.length hcon
    rw [String.length_append, String.length_append] at hlen
    have h2 : (", " : String).length = 2 := by decide
    have h0 : ("" : String).length = 0 := by decide
    rw [h2, h0] at hlen
    omega

/-! ## Helper lemmas: the album cache -/

/-- Every genre string stored in the cache is non-empty.  Holds for the
initially empty cache and is preserved by every lookup. -/
def CacheWF (cache : AlbumCache) : Prop :=
  ∀ p ∈ cache, ∀ g ∈ p.2, g ≠ ""

theorem cacheGet_mem : ∀ (cache : AlbumCache) (k : Nat) (v : List String),
    cacheGet cache k = some v → (k, v) ∈ cache
  | [], _, _, h => by simp [cacheGet] at h
  | (k0, v0) :: rest, k, v, h => by
    unfold cacheGet at h
    by_cases hk : k0 = k
    · rw [if_pos hk] at h
      cases h
      subst hk
      exact List.mem_cons_self _ _
    · rw [if_neg hk] at h
      exact List.mem_cons_of_mem _ (cacheGet_mem rest k v h)

theorem getDeezerAlbumInfo_wf (world : Nat → FetchResult DeezerAlbumResp)
    (cache : AlbumCache) (aid : Nat) (hwf : CacheWF cache) :
    CacheWF (getDeezerAlbumInfo world cache aid).1 ∧
      ∀ g ∈ (getDeezerAlbumInfo world cache aid).2.1, g ≠ "" := by
  unfold getDeezerAlbumInfo
  cases hc : cacheGet cache aid with
  | some v =>
    exact ⟨hwf, fun g hg => hwf _ (cacheGet_mem cache aid v hc) g hg⟩
  | none =>
    cases hw : world aid with
    | ok resp =>
      refine ⟨?_, extractAlbumGenres_ne_empty resp⟩
      intro p hp
      cases List.mem_cons.mp hp with
      | inl h =>
        subst h
        exact extractAlbumGenres_ne_empty resp
      | inr h => exact hwf p h
    | err =>
      exact ⟨hwf, by simp⟩

theorem albumPhaseB_wf (world : DeezerWorld) (cache : AlbumCache)
    (oid : Option Nat) (hwf : CacheWF cache) :
    CacheWF (albumPhaseB world cache oid).1 ∧
      (albumPhaseB world cache oid).2.1 ≠ "" := by
  cases oid with
  | none =>
    simp only [albumPhaseB]
    exact ⟨hwf, by decide⟩
  | some aid =>
    simp only [albumPhaseB]
    by_cases ha : aid ≠ 0
    · rw [if_pos ha]
      obtain ⟨hwf2, hgen⟩ := getDeezerAlbumInfo_wf world.album cache aid hwf
      by_cases hne : (getDeezerAlbumInfo world.album cache aid).2.1 ≠ []
      · rw [if_pos hne]
        exact ⟨hwf2, joinComma_ne_empty _ hne hgen⟩
      · rw [if_neg hne]
        exact ⟨hwf2, show ("Inconnu" : String) ≠ "" by decide⟩
    · rw [if_neg ha]
      exact ⟨hwf, show ("Inconnu" : String) ≠ "" by decide⟩

theorem processTrackB_wf (world : DeezerWorld) (cache : AlbumCache)
    (t : DeezerTrack) (hwf : CacheWF cache) :
    CacheWF (processTrackB world cache t).cache ∧
      (processTrackB world cache t).record.genre ≠ "" := by
  unfold processTrackB
  simp only
  obtain ⟨hwf2, hne⟩ := albumPhaseB_wf world cache (t.album.bind (fun a => a.id)) hwf
  refine ⟨hwf2, ?_⟩
  by_cases hf : (albumPhaseB world cache (t.album.bind (fun a => a.id))).2.1 = "Inconnu"
  · rw [if_pos hf]
    exact getAudioDBInfo_ne_empty _ _ _
  · rw [if_neg hf]
    exact hne

theorem analyzeLoopB_genre_ne_empty (world : DeezerWorld) :
    ∀ (ts : List DeezerTrack) (cache : AlbumCache), CacheWF cache →
      ∀ r ∈ (analyzeLoopB world cache ts).2.1, r.genre ≠ ""
  | [], _, _, r, hr => by simp [analyzeLoopB] at hr
  | t :: ts, cache, hwf, r, hr => by
    unfold analyzeLoopB at hr
    obtain ⟨hwf2, hgen⟩ := processTrackB_wf world cache t hwf
    simp only [List.mem_cons] at hr
    cases hr with
    | inl h =>
      subst h
      exact hgen
    | inr h =>
      exact analyzeLoopB_genre_ne_empty world ts
        (processTrackB world cache t).cache hwf2 r h

/-! ## Pagination over a served chain -/

theorem getPlaylistTracksLoop_chain (world : String → SpotifyPage)
    {url : String} {ps : List SpotifyPage} (h : ServesChain world url ps) :
    ∀ fuel, ps.length ≤ fuel →
      getPlaylistTracksLoop world fuel url =
        some ((ps.map fun p => p.items.filterMap mapItem).flatten, ps.length) := by
  induction h with
  | last hw hn =>
    intro fuel hf
    cases fuel with
    | zero => simp at hf
    | succ f =>
      rcases hn with hn | hn <;> simp [getPlaylistTracksLoop, hw, hn]
  | cons hw hn hne _ ih =>
    rename_i url2 nxt p ps2 hch
    intro fuel hf
    cases fuel with
    | zero => simp at hf
    | succ f =>
      have hf2 : ps2.length ≤ f := by simpa using hf
      have hrec := ih f hf2
      simp [getPlaylistTracksLoop, hw, hn, hne, hrec]

/-- C4: Variant A's paginated adapter, pointed at a server that serves a
finite chain of pages (each page naming the next page's URL, the last
page's `next` being null or empty), returns the in-order concatenation of
the mapped track items of every page, issues exactly one request per page
(so `ps.length` requests for `ps.length` pages), and an item whose
`track` object is null contributes nothing to the result. -/
theorem getPlaylistTracks_pagination (world : String → SpotifyPage)
    (url : String) (ps : List SpotifyPage) (fuel : Nat)
    (h : ServesChain world url ps) (hf : ps.length ≤ fuel) :
    getPlaylistTracksLoop world fuel url =
      some ((ps.map fun p => p.items.filterMap mapItem).flatten, ps.length) ∧
    ∀ it : SpotifyItem, it.track = none → mapItem it = none := by
  refine ⟨getPlaylistTracksLoop_chain world h fuel hf, ?_⟩
  intro it hit
  simp [mapItem, hit]

/-- Witness for C4: a three-page chain (the third page's `next` is null)
with one null-track item on the first page yields the three mapped tracks
in order and a request count of exactly 3. -/
theorem getPlaylistTracks_pagination_witness :
    getPlaylistTracksLoop
      (fun u =>
        if u = "u2" then ⟨[⟨some ⟨"2", "Two", none, none, none⟩⟩], some "u3"⟩
        else if u = "u3" then ⟨[⟨some ⟨"3", "Three", none, none, none⟩⟩], none⟩
        else ⟨[⟨some ⟨"1", "One", none, none, none⟩⟩, ⟨none⟩], some "u2"⟩)
      3 "u1" =
      some ([mapRawTrack ⟨"1", "One", none, none, none⟩,
             mapRawTrack ⟨"2", "Two", none, none, none⟩,
             mapRawTrack ⟨"3", "Three", none, none, none⟩], 3) := by
  have h := (getPlaylistTracks_pagination
    (fun u =>
      if u = "u2" then ⟨[⟨some ⟨"2", "Two", none, none, none⟩⟩], some "u3"⟩
      else if u = "u3" then ⟨[⟨some ⟨"3", "Three", none, none, none⟩⟩], none⟩
      else ⟨[⟨some ⟨"1", "One", none, none, none⟩⟩, ⟨none⟩], some "u2"⟩)
    "u1"
    [⟨[⟨some ⟨"1", "One", none, none, none⟩⟩, ⟨none⟩], some "u2"⟩,
     ⟨[⟨some ⟨"2", "Two", none, none, none⟩⟩], some "u3"⟩,
     ⟨[⟨some ⟨"3", "Three", none, none, none⟩⟩], none⟩]
    3
    (ServesChain.cons (by decide) rfl (by decide)
      (ServesChain.cons (by decide) rfl (by decide)
        (ServesChain.last (by decide) (Or.inl rfl))))
    (by decide)).1
  rw [h]
  decide

/-- C3: `getGenreWithFallback` resolution order.  (1) A usable primary
(TheAudioDB) genre — non-empty and not the sentinel — is returned as is.
(2) Otherwise, when an artist identifier is genuinely supplied (present,
truthy, and not the adapter's `"unknown"` placeholder, which spec §4.1
reserves for a missing artist), the result is the secondary provider's
answer — its first genre tag — when that answer is usable, and the
sentinel otherwise.  (3) With no genuine identifier the result is exactly
the sentinel.  (4) The secondary provider's answer is the first entry of
the artist's genre-tag array whenever the request succeeds and the array
is non-empty. -/
theorem getGenreWithFallback_order
    (aw : String → FetchResult AudioDBSearchResp)
    (sw : String → FetchResult SpotifyArtistResp)
    (name : String) (id : Option String) :
    (usableGenre (getGenreFromAudioDB (aw name)) →
      getGenreWithFallback aw sw name id = getGenreFromAudioDB (aw name)) ∧
    (¬ usableGenre (getGenreFromAudioDB (aw name)) →
      (∀ i, id = some i → i ≠ "" → i ≠ "unknown" →
        getGenreWithFallback aw sw name id =
          (if usableGenre (getGenreFromSpotifyById sw i)
           then getGenreFromSpotifyById sw i else "Inconnu")) ∧
      ((id = none ∨ id = some "" ∨ id = some "unknown") →
        getGenreWithFallback aw sw name id = "Inconnu")) ∧
    (∀ (i : String) (resp : SpotifyArtistResp) (g : String) (gs : List String),
      i ≠ "" → i ≠ "unknown" → sw i = .ok resp → resp.genres = some (g :: gs) →
      getGenreFromSpotifyById sw i = g) := by
  refine ⟨?_, fun h => ⟨?_, ?_⟩, ?_⟩
  · intro h
    unfold usableGenre at h
    unfold getGenreWithFallback
    rw [if_pos h]
  · intro i hi hi1 hi2
    subst hi
    unfold usableGenre at h
    simp only [getGenreWithFallback, usableGenre]
    rw [if_neg h, if_pos hi1]
  · unfold usableGenre at h
    rintro (h0 | h0 | h0) <;> subst h0
    · unfold getGenreWithFallback
      rw [if_neg h]
    · simp only [getGenreWithFallback]
      rw [if_neg h]
      simp
    · simp only [getGenreWithFallback]
      rw [if_neg h]
      have hu : getGenreFromSpotifyById sw "unknown" = "Inconnu" := by
        unfold getGenreFromSpotifyById
        rw [if_pos (Or.inr rfl)]
      simp [hu]
  · intro i resp g gs hi1 hi2 hsw hg
    unfold getGenreFromSpotifyById
    rw [if_neg (by simp [hi1, hi2]), hsw]
    simp [hg]

/-- Witness for C3: with a failing primary provider and a secondary
provider answering with genre tags `["Rock"]`, a supplied genuine artist
id resolves to the first tag. -/
theorem getGenreWithFallback_order_witness :
    getGenreWithFallback (fun _ => .err) (fun _ => .ok ⟨some ["Rock"]⟩)
      "Queen" (some "ab12") = "Rock" := by
  have h := ((getGenreWithFallback_order (fun _ => .err)
    (fun _ => .ok ⟨some ["Rock"]⟩) "Queen" (some "ab12")).2.1
    (by decide)).1 "ab12" rfl (by decide) (by decide)
  rw [h]
  decide

/-- C2: Every output record produced by either variant's per-track loop
has a non-empty genre field — whenever no provider yields a usable value
the fixed `"Inconnu"` sentinel is substituted, and every other outcome is
a truthy provider string or a comma-join of truthy album genre names.
Variant B starts from the empty album cache, as the script does. -/
theorem outputRecord_genre_nonempty :
    (∀ (aw : String → FetchResult AudioDBSearchResp)
       (sw : String → FetchResult SpotifyArtistResp) (ts : List Track),
       ∀ r ∈ (analyzeLoopA aw sw ts).1, r.genre ≠ "") ∧
    (∀ (world : DeezerWorld) (ts : List DeezerTrack),
       ∀ r ∈ (analyzeLoopB world [] ts).2.1, r.genre ≠ "") := by
  constructor
  · intro aw sw ts
    induction ts with
    | nil => intro r hr; simp [analyzeLoopA] at hr
    | cons t ts ih =>
      intro r hr
      unfold analyzeLoopA at hr
      simp only [List.mem_cons] at hr
      cases hr with
      | inl h =>
        subst h
        exact getGenreWithFallback_ne_empty aw sw _ _
      | inr h => exact ih r h
  · intro world ts
    exact analyzeLoopB_genre_ne_empty world ts []
      (fun p hp => absurd hp (List.not_mem_nil p))

/-- Witness for C2: a track with no artist data in each variant still
yields a record with the non-empty sentinel genre. -/
theorem outputRecord_genre_nonempty_witness :
    ({ title := "t", artist := "", album := "al", genre := "Inconnu",
       duration := "Inconnu", duration_seconds := none } : OutputRecord).genre ≠ "" ∧
    ({ title := "Inconnu", artist := "Inconnu", album := "Inconnu",
       genre := "Inconnu", duration := "Inconnu",
       duration_seconds := none } : OutputRecord).genre ≠ "" :=
  ⟨outputRecord_genre_nonempty.1 (fun _ => .err) (fun _ => .err)
      [⟨"id", "t", none, ⟨"", ""⟩, ⟨"", "al"⟩⟩] _ (by decide),
   outputRecord_genre_nonempty.2 ⟨fun _ => .err, fun _ => .err⟩
      [⟨none, none, none, none⟩] _ (by decide)⟩

/-- C6 counterexample: the inputs 0 ms and 999 ms represent the same
number of whole seconds (zero), yet variant A's `formatDurationMs`
returns `"Inconnu"` for 0 (a falsy number) and `"0:00"` for 999, so the
claimed invariance over all equal-whole-second pairs fails at 0. -/
theorem formatDurationMs_zero_cex :
    Int.fdiv 0 1000 = Int.fdiv 999 1000 ∧
    formatDurationMs (some (.finite 0)) = "Inconnu" ∧
    formatDurationMs (some (.finite 999)) = "0:00" ∧
    formatDurationMs (some (.finite 0)) ≠ formatDurationMs (some (.finite 999)) := by
  decide

/-- C6 (amended): for every pair of nonzero millisecond inputs
representing the same number of whole seconds, variant A's
`formatDurationMs` returns an identical string; for null/undefined, NaN
and both infinities, both variants' formatters return the sentinel; and
`formatDurationMs` of 65000 ms and `formatDuration` of 65 s both render
`"1:05"`, seconds zero-padded to two digits. -/
theorem formatDuration_agreement (a b : Int) (ha : a ≠ 0) (hb : b ≠ 0)
    (h : Int.fdiv a 1000 = Int.fdiv b 1000) :
    formatDurationMs (some (.finite a)) = formatDurationMs (some (.finite b)) ∧
    (formatDurationMs none = "Inconnu" ∧
     formatDurationMs (some .nan) = "Inconnu" ∧
     formatDurationMs (some .posInf) = "Inconnu" ∧
     formatDurationMs (some .negInf) = "Inconnu") ∧
    (formatDuration none = "Inconnu" ∧
     formatDuration (some .nan) = "Inconnu" ∧
     formatDuration (some .posInf) = "Inconnu" ∧
     formatDuration (some .negInf) = "Inconnu") ∧
    formatDurationMs (some (.finite 65000)) = "1:05" ∧
    formatDuration (some (.finite 65)) = "1:05" := by
  refine ⟨?_, by decide, by decide, by decide, by decide⟩
  simp only [formatDurationMs, if_neg ha, if_neg hb, h]

/-- Witness for C6: 65000 ms and 65999 ms (both nonzero, same whole
seconds) format identically. -/
theorem formatDuration_agreement_witness :
    formatDurationMs (some (.finite 65000)) = formatDurationMs (some (.finite 65999)) :=
  (formatDuration_agreement 65000 65999 (by decide) (by decide) (by decide)).1

/-- C7: Every per-track enrichment operation converts a thrown
network/parse error into its explicit degraded result instead of
propagating it: the sentinel for genre lookups (variant A primary,
variant A secondary, variant B fallback), absence for the tempo lookup,
and the empty list (with an unchanged cache) for the album-genre
lookup. -/
theorem enrichment_fault_tolerant :
    (getGenreFromAudioDB .err = "Inconnu") ∧
    (∀ toNumber : String → JSNumber,
      getTrackBpmFromAudioDB toNumber .err = none) ∧
    (∀ (sw : String → FetchResult SpotifyArtistResp) (i : String),
      sw i = .err → getGenreFromSpotifyById sw i = "Inconnu") ∧
    (∀ (w : Nat → FetchResult DeezerAlbumResp) (cache : AlbumCache) (aid : Nat),
      cacheGet cache aid = none → w aid = .err →
      getDeezerAlbumInfo w cache aid = (cache, [], 1)) ∧
    (∀ (aw : String → FetchResult AudioDBSearchResp) (n t : String),
      aw n = .err → getAudioDBInfo aw n t = "Inconnu") := by
  refine ⟨rfl, fun _ => rfl, ?_, ?_, ?_⟩
  · intro sw i hsw
    unfold getGenreFromSpotifyById
    by_cases hg : i = "" ∨ i = "unknown"
    · rw [if_pos hg]
    · rw [if_neg hg, hsw]
  · intro w cache aid hc hw
    unfold getDeezerAlbumInfo
    rw [hc, hw]
  · intro aw n t hw
    unfold getAudioDBInfo
    rw [hw]

/-- Witness for C7: concrete failing endpoints produce the degraded
results. -/
theorem enrichment_fault_tolerant_witness :
    getGenreFromSpotifyById (fun _ => .err) "a1" = "Inconnu" ∧
    getDeezerAlbumInfo (fun _ => .err) [] 5 = ([], [], 1) ∧
    getAudioDBInfo (fun _ => .err) "A" "T" = "Inconnu" :=
  ⟨enrichment_fault_tolerant.2.2.1 (fun _ => .err) "a1" rfl,
   enrichment_fault_tolerant.2.2.2.1 (fun _ => .err) [] 5 rfl rfl,
   enrichment_fault_tolerant.2.2.2.2 (fun _ => .err) "A" "T" rfl⟩

/-- C9: The tempo lookup is a total function into `Option Int`.  When the
track-search response holds a first match whose tempo field is truthy,
that field is converted with JavaScript `Number(...)` and returned exactly
when the conversion is finite; the result is absent when the request
throws, when there is no match (null or empty `track` array), when the
tempo field is null or empty, or when the conversion is not finite. -/
theorem getTrackBpm_spec (toNumber : String → JSNumber)
    (fetch : FetchResult AudioDBTrackResp) :
    (fetch = .err → getTrackBpmFromAudioDB toNumber fetch = none) ∧
    (∀ resp, fetch = .ok resp → resp.track = none →
      getTrackBpmFromAudioDB toNumber fetch = none) ∧
    (∀ resp, fetch = .ok resp → resp.track = some [] →
      getTrackBpmFromAudioDB toNumber fetch = none) ∧
    (∀ resp t rest, fetch = .ok resp → resp.track = some (t :: rest) →
      (t.intTempo = none ∨ t.intTempo = some "" →
        getTrackBpmFromAudioDB toNumber fetch = none) ∧
      (∀ s n, t.intTempo = some s → s ≠ "" → toNumber s = .finite n →
        getTrackBpmFromAudioDB toNumber fetch = some n) ∧
      (∀ s, t.intTempo = some s → s ≠ "" →
        (toNumber s = .nan ∨ toNumber s = .posInf ∨ toNumber s = .negInf) →
        getTrackBpmFromAudioDB toNumber fetch = none)) := by
  refine ⟨?_, ?_, ?_, ?_⟩
  · intro h
    subst h
    rfl
  · intro resp h ht
    subst h
    simp [getTrackBpmFromAudioDB, ht]
  · intro resp h ht
    subst h
    simp [getTrackBpmFromAudioDB, ht]
  · intro resp t rest h ht
    subst h
    refine ⟨?_, ?_, ?_⟩
    · rintro (h0 | h0) <;> simp [getTrackBpmFromAudioDB, ht, h0]
    · intro s n hs hsne hnum
      simp [getTrackBpmFromAudioDB, ht, hs, hsne, hnum]
    · rintro s hs hsne (h0 | h0 | h0) <;>
        simp [getTrackBpmFromAudioDB, ht, hs, hsne, h0]

/-- Witness for C9: a response whose first match carries tempo `"120"`,
converted to the finite number 120, yields `some 120`. -/
theorem getTrackBpm_spec_witness :
    getTrackBpmFromAudioDB (fun _ => .finite 120)
      (.ok ⟨some [⟨some "120"⟩]⟩) = some 120 :=
  ((getTrackBpm_spec (fun _ => .finite 120)
      (.ok ⟨some [⟨some "120"⟩]⟩)).2.2.2 ⟨some [⟨some "120"⟩]⟩
      ⟨some "120"⟩ [] rfl rfl).2.1 "120" 120 rfl (by decide) rfl

/-- C10: A duration of exactly 0 (milliseconds in variant A, seconds in
variant B) is falsy, so both formatters return the sentinel rather than
`"0:00"`; variant A's numeric-seconds expression also yields the empty
marker for 0, while variant B passes the 0 through to the numeric-seconds
field, so its record shows `"Inconnu"` next to the number 0. -/
theorem zero_duration_behavior :
    formatDurationMs (some (.finite 0)) = "Inconnu" ∧
    durationSecondsA (some (.finite 0)) = none ∧
    formatDuration (some (.finite 0)) = "Inconnu" ∧
    (recordOfTrackA (fun _ => .err) (fun _ => .err)
      ⟨"i", "t", some (.finite 0), ⟨"", ""⟩, ⟨"", ""⟩⟩).duration = "Inconnu" ∧
    (recordOfTrackA (fun _ => .err) (fun _ => .err)
      ⟨"i", "t", some (.finite 0), ⟨"", ""⟩, ⟨"", ""⟩⟩).duration_seconds = none ∧
    (processTrackB ⟨fun _ => .err, fun _ => .err⟩ []
      ⟨some "t", none, none, some (.finite 0)⟩).record.duration = "Inconnu" ∧
    (processTrackB ⟨fun _ => .err, fun _ => .err⟩ []
      ⟨some "t", none, none, some (.finite 0)⟩).record.duration_seconds
      = some (.finite 0) := by
  decide

/-- C1 counterexample: with an album endpoint that throws, the first
lookup of album 7 issues a request, returns the degraded empty list but
stores nothing, and a second lookup of the same identifier issues a
second request — so the "empty-list result is stored on failure" and the
"at most one album-info request for two lookups" parts of the claim are
false on the code. -/
theorem albumCache_failure_not_stored :
    getDeezerAlbumInfo (fun _ => .err) [] 7 = ([], [], 1) ∧
    getDeezerAlbumInfo (fun _ => .err)
      (getDeezerAlbumInfo (fun _ => .err) [] 7).1 7 = ([], [], 1) ∧
    ¬ ((getDeezerAlbumInfo (fun _ => .err) [] 7).2.2 +
       (getDeezerAlbumInfo (fun _ => .err)
         (getDeezerAlbumInfo (fun _ => .err) [] 7).1 7).2.2 ≤ 1) := by
  decide

/-- C1 (amended): a lookup returns the previously stored value without a
request, or issues exactly one population request; a successful
population stores its extracted genre list before returning it, while a
failed population returns the empty list without storing anything, so a
later lookup of the same identifier retries.  Consequently two lookups of
the same album identifier cause at most one request in total — and the
second returns the first's value unchanged — whenever the identifier is
already cached or the population call succeeds. -/
theorem getDeezerAlbumInfo_cache_semantics
    (w : Nat → FetchResult DeezerAlbumResp) (cache : AlbumCache) (aid : Nat) :
    (∀ v, cacheGet cache aid = some v →
      getDeezerAlbumInfo w cache aid = (cache, v, 0)) ∧
    (∀ resp, cacheGet cache aid = none → w aid = .ok resp →
      getDeezerAlbumInfo w cache aid =
        ((aid, extractAlbumGenres resp) :: cache, extractAlbumGenres resp, 1) ∧
      cacheGet ((aid, extractAlbumGenres resp) :: cache) aid
        = some (extractAlbumGenres resp)) ∧
    (cacheGet cache aid = none → w aid = .err →
      getDeezerAlbumInfo w cache aid = (cache, [], 1)) ∧
    ((w aid ≠ .err ∨ ∃ v, cacheGet cache aid = some v) →
      (getDeezerAlbumInfo w cache aid).2.2 +
        (getDeezerAlbumInfo w (getDeezerAlbumInfo w cache aid).1 aid).2.2 ≤ 1 ∧
      (getDeezerAlbumInfo w (getDeezerAlbumInfo w cache aid).1 aid).2.1 =
        (getDeezerAlbumInfo w cache aid).2.1) := by
  refine ⟨?_, ?_, ?_, ?_⟩
  · intro v hc
    unfold getDeezerAlbumInfo
    rw [hc]
  · intro resp hc hw
    constructor
    · unfold getDeezerAlbumInfo
      rw [hc, hw]
    · unfold cacheGet
      rw [if_pos rfl]
  · intro hc hw
    unfold getDeezerAlbumInfo
    rw [hc, hw]
  · intro h
    cases hc : cacheGet cache aid with
    | some v =>
      have h1 : getDeezerAlbumInfo w cache aid = (cache, v, 0) := by
        unfold getDeezerAlbumInfo
        rw [hc]
      rw [h1]
      simp only
      rw [h1]
      simp
    | none =>
      cases hw : w aid with
      | ok resp =>
        have h1 : getDeezerAlbumInfo w cache aid =
            ((aid, extractAlbumGenres resp) :: cache, extractAlbumGenres resp, 1) := by
          unfold getDeezerAlbumInfo
          rw [hc, hw]
        have h2 : getDeezerAlbumInfo w ((aid, extractAlbumGenres resp) :: cache) aid
            = ((aid, extractAlbumGenres resp) :: cache, extractAlbumGenres resp, 0) := by
          unfold getDeezerAlbumInfo cacheGet
          rw [if_pos rfl]
        rw [h1]
        simp only
        rw [h2]
        simp
      | err =>
        rcases h with h | ⟨v, hv⟩
        · exact absurd hw h
        · rw [hv] at hc
          cases hc

/-- Witness for C1 (amended): a succeeding album endpoint — two lookups
of album 5 from an empty cache issue one request in total and agree on
the genre list. -/
theorem getDeezerAlbumInfo_cache_semantics_witness :
    (getDeezerAlbumInfo (fun _ => .ok ⟨some [⟨some "Rock"⟩]⟩) [] 5).2.2 +
      (getDeezerAlbumInfo (fun _ => .ok ⟨some [⟨some "Rock"⟩]⟩)
        (getDeezerAlbumInfo (fun _ => .ok ⟨some [⟨some "Rock"⟩]⟩) [] 5).1 5).2.2 ≤ 1 ∧
    (getDeezerAlbumInfo (fun _ => .ok ⟨some [⟨some "Rock"⟩]⟩)
      (getDeezerAlbumInfo (fun _ => .ok ⟨some [⟨some "Rock"⟩]⟩) [] 5).1 5).2.1 =
      (getDeezerAlbumInfo (fun _ => .ok ⟨some [⟨some "Rock"⟩]⟩) [] 5).2.1 :=
  (getDeezerAlbumInfo_cache_semantics (fun _ => .ok ⟨some [⟨some "Rock"⟩]⟩) [] 5).2.2.2
    (Or.inl (by decide))

/-- C8 counterexample: when the album lookup yields the non-empty genre
list `["Inconnu"]`, its comma-join equals the sentinel, so variant B
still makes the fallback call and takes the pause — the claim's "skipped
for any track whose album lookup yielded a non-empty genre" clause fails
on this track. -/
theorem pause_policy_cex :
    (getDeezerAlbumInfo (fun _ => .ok ⟨some [⟨some "Inconnu"⟩]⟩) [] 5).2.1 ≠ [] ∧
    (processTrackB ⟨fun _ => .ok ⟨some [⟨some "Inconnu"⟩]⟩, fun _ => .err⟩ []
      ⟨some "t", none, some ⟨some 5, some "A"⟩, none⟩).paused = true := by
  decide

/-- C8 (amended): variant A awaits the one-second pause once per
processed track, unconditionally, so a run over any track list pauses
exactly once per track; variant B pauses on a track exactly when the
TheAudioDB fallback call is made for it, and in particular skips the
pause for any track whose (truthy) album identifier's lookup yielded a
non-empty genre list whose comma-join differs from the sentinel
`"Inconnu"`. -/
theorem pause_policy
    (aw : String → FetchResult AudioDBSearchResp)
    (sw : String → FetchResult SpotifyArtistResp)
    (ts : List Track) (world : DeezerWorld) (cache : AlbumCache)
    (t : DeezerTrack) :
    (analyzeLoopA aw sw ts).2 = ts.length ∧
    ((processTrackB world cache t).paused
      = (processTrackB world cache t).fallbackCalled) ∧
    (∀ aid, (t.album.bind fun a => a.id) = some aid → aid ≠ 0 →
      (getDeezerAlbumInfo world.album cache aid).2.1 ≠ [] →
      joinComma (getDeezerAlbumInfo world.album cache aid).2.1 ≠ "Inconnu" →
      (processTrackB world cache t).paused = false) := by
  refine ⟨?_, rfl, ?_⟩
  · induction ts with
    | nil => rfl
    | cons t2 ts ih => simp [analyzeLoopA, ih]
  · intro aid hid ha hne hj
    unfold processTrackB
    simp only [hid]
    have hp : albumPhaseB world cache (some aid) =
        ((getDeezerAlbumInfo world.album cache aid).1,
         joinComma (getDeezerAlbumInfo world.album cache aid).2.1,
         (getDeezerAlbumInfo world.album cache aid).2.2) := by
      simp [albumPhaseB, ha, hne]
    rw [hp]
    simp [hj]

/-- Witness for C8: a track whose album lookup yields `["Rock"]` skips
the pause. -/
theorem pause_policy_witness :
    (processTrackB ⟨fun _ => .ok ⟨some [⟨some "Rock"⟩]⟩, fun _ => .err⟩ []
      ⟨some "t", none, some ⟨some 5, some "A"⟩, none⟩).paused = false :=
  (pause_policy (fun _ => .err) (fun _ => .err) []
    ⟨fun _ => .ok ⟨some [⟨some "Rock"⟩]⟩, fun _ => .err⟩ []
    ⟨some "t", none, some ⟨some 5, some "A"⟩, none⟩).2.2 5 rfl
    (by decide) (by decide) (by decide)
